import Mathlib

/-!
Verification of the keystone telemetry reporter.

The TypeScript sources are shallowly embedded: the process environment is a
partial map from variable names to strings, the external runtime primitives
(machine id, OS queries, the git invocation, SHA-256, JSON serialization and
the HTTP client) are fields of a `World` record, and the side effects a call
performs are collected into an explicit list.  Fallible primitives return
`Except TsError`; the `try { ... } catch { ... }` wrapper of the dispatcher
becomes an explicit outcome component that swallows the error case.
-/

/-- JavaScript runtime errors are modelled by their message only. -/
abbrev TsError := String

/-- The process environment: `none` means the variable is unset. -/
abbrev EnvF := String → Option String

/-- JavaScript truthiness of a string value: every non-empty string is truthy. -/
def jsTruthyStr (s : String) : Bool := s ≠ ""

/-- JavaScript `a || b` where `a` is a possibly-undefined string and the result
is again a possibly-undefined string: an unset or empty `a` falls through. -/
def jsOrOpt (a b : Option String) : Option String :=
  match a with
  | some s => if s = "" then b else some s
  | none => b

/-- JavaScript `a || b` where `a` is a possibly-undefined string and `b` is a
definite string, as in `process.env.X || defaultValue`. -/
def jsOrStr (a : Option String) (b : String) : String :=
  match a with
  | some s => if s = "" then b else s
  | none => b

/-- The subset of JavaScript values appearing in the telemetry payloads. -/
inductive JsValue where
  | str (s : String)
  | nullv
  | undef
  | numArr (ns : List Nat)
  | strMap (m : List (String × String))
  deriving Repr, DecidableEq

/-- Render a nullable string field (`null` in the payload when absent). -/
def jsStrOrNull (o : Option String) : JsValue :=
  match o with
  | some s => JsValue.str s
  | none => JsValue.nullv

/-- Render an optional string field (`undefined` in the payload when absent). -/
def jsStrOrUndef (o : Option String) : JsValue :=
  match o with
  | some s => JsValue.str s
  | none => JsValue.undef

/-- Look a key up in a JavaScript object literal rendered as an association
list in insertion order: a later binding for the same key wins, as with the
object-spread construction `{ ...a, ...b }`. -/
def jsGet (k : String) : List (String × JsValue) → Option JsValue
  | [] => none
  | (a, v) :: rest =>
    match jsGet k rest with
    | some w => some w
    | none => if a = k then some v else none

/-- Observable side effects of one dispatcher call. -/
inductive Effect where
  | collectDevice
  | collectProject (cwd : String)
  | consoleLog (s : String)
  | consoleLogData (d : List (String × JsValue))
  | fetchPost (url method contentType body : String)
  deriving Repr, DecidableEq

/-- Schema/list argument of the dispatcher, reduced to what the project
collector consumes: each declared list with its number of fields. -/
abbrev ListsConfig := List (String × Nat)

/-- The ambient world a telemetry call runs in: the environment plus the
external primitives the code calls, each allowed to fail where the runtime
counterpart can throw. -/
structure World where
  env : EnvF
  /-- `machineIdSync()` from node-machine-id; already one-way hashed by the
  primitive itself.  May throw. -/
  machineId : Except TsError String
  /-- `os.platform()`. -/
  osPlatform : String
  /-- `os.release()`. -/
  osRelease : String
  /-- `process.version`. -/
  nodeVersion : String
  /-- Raw stdout of the git remote-origin query; `Except.error` models the
  command throwing (not a git repository, git missing, ...). -/
  gitOriginRaw : Except TsError String
  /-- `createHash('sha256').update(text).digest('hex')` from node crypto. -/
  sha256hex : String → String
  /-- Known framework package versions found by the best-effort lookup. -/
  packageVersions : List (String × String)
  /-- `JSON.stringify` applied to the payload object.  May throw. -/
  stringifyResult : List (String × JsValue) → Except TsError String
  /-- Synchronous behaviour of `fetch(url, ...)`: `Except.error` models a
  synchronous throw, in which case no request was issued; the asynchronous
  promise outcome is discarded by the no-op handlers either way. -/
  fetchResult : String → Except TsError Unit

/- ----------------------------------------------------------------------
Device fingerprint collector (`deviceInfo.ts`).
---------------------------------------------------------------------- -/

/-- Cut a character list at the first `'.'`, keeping what precedes it;
mirrors `indexOf('.')` followed by `substring(0, encodingIndex)`. -/
def dropFromDot : List Char → List Char
  | [] => []
  | c :: cs => if c = '.' then [] else c :: dropFromDot cs

/-- String form of `dropFromDot`. -/
def dropFromDotStr (s : String) : String := ⟨dropFromDot s.data⟩

/-- The `locale` helper of `deviceInfo.ts`:
`env.LC_ALL || env.LC_MESSAGES || env.LANG || env.LANGUAGE || env.LC_NAME`,
`null` when the chain is falsy, otherwise the value with an encoding suffix
introduced by `'.'` stripped. -/
def locale (env : EnvF) : Option String :=
  let localeWithEncoding :=
    jsOrOpt (env "LC_ALL") (jsOrOpt (env "LC_MESSAGES")
      (jsOrOpt (env "LANG") (jsOrOpt (env "LANGUAGE") (env "LC_NAME"))))
  match localeWithEncoding with
  | none => none
  | some s => if s = "" then none else some (dropFromDotStr s)

/-- Result record of `deviceInfo()`. -/
structure DeviceInfo where
  deviceHash : String
  os : String
  osVersion : String
  nodeVersion : String
  locale : Option String
  deriving Repr, DecidableEq

/-- The record `deviceInfo()` builds once `machineIdSync()` has returned. -/
def deviceInfoOf (w : World) (mid : String) : DeviceInfo :=
  { deviceHash := mid
    os := w.osPlatform
    osVersion := w.osRelease
    nodeVersion := w.nodeVersion
    locale := locale w.env }

/-- `deviceInfo()`: propagates a throw of the machine-id primitive. -/
def deviceInfoRun (w : World) : Except TsError DeviceInfo :=
  match w.machineId with
  | Except.error e => Except.error e
  | Except.ok mid => Except.ok (deviceInfoOf w mid)

/- ----------------------------------------------------------------------
Project fingerprint collector.  The implementation file is absent from the
sources (only its unit tests and callers are present), so it is modelled
from the specification, section 4.3.
---------------------------------------------------------------------- -/

/-- Strip one trailing newline character, if present. -/
def stripTrailingNL (l : List Char) : List Char :=
  match l.reverse with
  | [] => l
  | c :: rest => if c = '\n' then rest.reverse else l

/-- Drop a literal leading pattern, or fail. -/
def stripLead : List Char → List Char → Option (List Char)
  | [], l => some l
  | _ :: _, [] => none
  | p :: ps, c :: cs => if p = c then stripLead ps cs else none

/-- Replace the first `':'` by `'/'` (the SSH host/path separator). -/
def replaceFirstColon : List Char → List Char
  | [] => []
  | c :: cs => if c = ':' then '/' :: cs else c :: replaceFirstColon cs

/-- Whether an `'@'` occurs before any `'/'`, i.e. whether a credentials
segment precedes the host. -/
def hasAtBeforeSlash : List Char → Bool
  | [] => false
  | c :: cs => if c = '/' then false else if c = '@' then true else hasAtBeforeSlash cs

/-- Drop everything up to and including the first `'@'`. -/
def dropThroughAt : List Char → List Char
  | [] => []
  | c :: cs => if c = '@' then cs else dropThroughAt cs

/-- Modelled from the spec: normalization of a git remote URL down to
`host/path` — strip the `git@` form (replacing its `':'` separator), or strip
an `https://` / `http://` protocol and an optional leading credentials
segment `user@`. -/
def normalizeChars (l : List Char) : List Char :=
  match stripLead "git@".data l with
  | some rest => replaceFirstColon rest
  | none =>
    let rest :=
      match stripLead "https://".data l with
      | some r => r
      | none =>
        match stripLead "http://".data l with
        | some r => r
        | none => l
    if hasAtBeforeSlash rest then dropThroughAt rest else rest

/-- Modelled from the spec: full origin normalization — strip a trailing
newline from the raw git output; empty output yields `none`, otherwise the
normalized `host/path` string. -/
def normalizeOrigin (s : String) : Option String :=
  let t := stripTrailingNL s.data
  if t = [] then none else some ⟨normalizeChars t⟩

/-- Modelled from the spec: the git-origin hash — one-way hash of the
normalized origin, `none` when there is no usable origin. -/
def gitOriginHashOf (hash : String → String) (raw : String) : Option String :=
  (normalizeOrigin raw).map hash

/-- Result record of `projectInfo(cwd, lists)`. -/
structure ProjectInfo where
  gitOriginHash : Option String
  pathHash : String
  fieldCounts : Option (List Nat)
  keystonePackages : List (String × String)
  deriving Repr, DecidableEq

/-- Modelled from the spec: `projectInfo(cwd, lists)` — a failing git command
yields a `none` origin hash rather than a throw; the working directory is
hashed directly; the schema argument is reduced to per-list field counts;
package versions come from the best-effort lookup. -/
def projectInfoRun (w : World) (cwd : String) (lists : Option ListsConfig) : ProjectInfo :=
  { gitOriginHash :=
      match w.gitOriginRaw with
      | Except.error _ => none
      | Except.ok raw => gitOriginHashOf w.sha256hex raw
    pathHash := w.sha256hex cwd
    fieldCounts := lists.map (fun ls => ls.map (fun p => p.2))
    keystonePackages := w.packageVersions }

/- ----------------------------------------------------------------------
Event dispatcher (`src/unnamed/part_000`, second variant: the
`KEYSTONE_`-prefixed environment flags and the `/v1/event` path).
---------------------------------------------------------------------- -/

/-- Modelled from the spec: the compiled-in default endpoint base URL
(`defaults.telemetryEndpoint`, whose defining file is absent from the
sources); the unit tests pin its value. -/
def defaultTelemetryEndpoint : String := "https://telemetry.keystonejs.com"

/-- `process.env.KEYSTONE_TELEMETRY_ENDPOINT || defaults.telemetryEndpoint`. -/
def resolveTelemetryEndpoint (env : EnvF) : String :=
  jsOrStr (env "KEYSTONE_TELEMETRY_ENDPOINT") defaultTelemetryEndpoint

/-- The fields of `deviceInfo()` in object-literal order. -/
def deviceFields (d : DeviceInfo) : List (String × JsValue) :=
  [ ("deviceHash", JsValue.str d.deviceHash)
  , ("os", JsValue.str d.os)
  , ("osVersion", JsValue.str d.osVersion)
  , ("nodeVersion", JsValue.str d.nodeVersion)
  , ("locale", jsStrOrNull d.locale) ]

/-- The fields of `projectInfo(cwd, lists)` in object-literal order. -/
def projectFields (p : ProjectInfo) : List (String × JsValue) :=
  [ ("gitOriginHash", jsStrOrNull p.gitOriginHash)
  , ("pathHash", JsValue.str p.pathHash)
  , ("fieldCounts", match p.fieldCounts with
      | some ns => JsValue.numArr ns
      | none => JsValue.undef)
  , ("keystonePackages", JsValue.strMap p.keystonePackages) ]

/-- The merged payload
`{ ...deviceInfo(), ...projectInfo(cwd, lists), dbProvider, eventType }`,
in spread order: call-supplied keys come last. -/
def eventDataFields (d : DeviceInfo) (p : ProjectInfo)
    (dbProvider : Option String) (eventType : String) : List (String × JsValue) :=
  deviceFields d ++ projectFields p ++
    [("dbProvider", jsStrOrUndef dbProvider), ("eventType", JsValue.str eventType)]

/-- The body of `sendTelemetryEvent` up to but excluding the outer
`try/catch`: the effects performed so far paired with the outcome, where
`Except.error` is an uncaught exception at that point. -/
def sendTelemetryEventCore (w : World) (eventType cwd : String)
    (dbProvider : Option String) (lists : Option ListsConfig) :
    List Effect × Except TsError Unit :=
  if w.env "KEYSTONE_TELEMETRY_DISABLED" = some "1" then
    ([], Except.ok ())
  else
    match deviceInfoRun w with
    | Except.error e => ([Effect.collectDevice], Except.error e)
    | Except.ok di =>
      let pi := projectInfoRun w cwd lists
      let eventData := eventDataFields di pi dbProvider eventType
      let telemetryEndpoint := resolveTelemetryEndpoint w.env
      let telemetryUrl := telemetryEndpoint ++ "/v1/event"
      if w.env "KEYSTONE_TELEMETRY_DEBUG" = some "1" then
        ([ Effect.collectDevice, Effect.collectProject cwd
         , Effect.consoleLog ("[Telemetry]: " ++ telemetryUrl)
         , Effect.consoleLogData eventData ], Except.ok ())
      else
        match w.stringifyResult eventData with
        | Except.error e =>
          ([Effect.collectDevice, Effect.collectProject cwd], Except.error e)
        | Except.ok body =>
          match w.fetchResult telemetryUrl with
          | Except.error e =>
            ([Effect.collectDevice, Effect.collectProject cwd], Except.error e)
          | Except.ok _ =>
            ([ Effect.collectDevice, Effect.collectProject cwd
             , Effect.fetchPost telemetryUrl "POST" "application/json" body ],
             Except.ok ())

/-- `sendTelemetryEvent(eventType, cwd, dbProvider, lists)`: the core body
wrapped in the outer `try { ... } catch (err) { /* fail silently */ }`. -/
def sendTelemetryEvent (w : World) (eventType cwd : String)
    (dbProvider : Option String) (lists : Option ListsConfig) :
    List Effect × Except TsError Unit :=
  let r := sendTelemetryEventCore w eventType cwd dbProvider lists
  match r.2 with
  | Except.ok _ => (r.1, Except.ok ())
  | Except.error _ => (r.1, Except.ok ())

/- ----------------------------------------------------------------------
Theorems.
---------------------------------------------------------------------- -/

/-- C1: for every invocation of `sendTelemetryEvent` — any arguments, any
environment, and even when the machine-id primitive, the serializer or the
HTTP client throws synchronously — the function never raises to its caller:
its outcome component is always a normal return. -/
theorem sendTelemetryEvent_never_throws (w : World) (eventType cwd : String)
    (dbProvider : Option String) (lists : Option ListsConfig) :
    (sendTelemetryEvent w eventType cwd dbProvider lists).2 = Except.ok () := by
  cases h : (sendTelemetryEventCore w eventType cwd dbProvider lists).2 <;>
    simp [sendTelemetryEvent, h]

/-- A concrete world in which every external primitive succeeds and no
telemetry-related environment variable is set. -/
def baseWorld : World :=
  { env := fun _ => none
    machineId := Except.ok "machine-id-hashed"
    osPlatform := "linux"
    osRelease := "5.10.0"
    nodeVersion := "v16.13.0"
    gitOriginRaw := Except.ok "git@github.com:keystone/keystone.git"
    sha256hex := fun s => s ++ "-sha"
    packageVersions := [("@keystone-next/keystone", "1.2.3")]
    stringifyResult := fun _ => Except.ok "json-body"
    fetchResult := fun _ => Except.ok () }

/-- `baseWorld` with the disable variable holding the truthy string "true". -/
def truthyDisabledWorld : World :=
  { baseWorld with
    env := fun k => if k = "KEYSTONE_TELEMETRY_DISABLED" then some "true" else none }

/-- C2 counterexample: the disable variable holds "true", a truthy JavaScript
string, yet the dispatcher does not return immediately — it collects the
fingerprints and issues the HTTP request, because the code compares against
the exact sentinel "1". -/
theorem sendTelemetryEvent_truthy_not_disabled :
    truthyDisabledWorld.env "KEYSTONE_TELEMETRY_DISABLED" = some "true"
    ∧ jsTruthyStr "true" = true
    ∧ (sendTelemetryEvent truthyDisabledWorld "dev" "/repo" none none).1 =
        [ Effect.collectDevice, Effect.collectProject "/repo"
        , Effect.fetchPost "https://telemetry.keystonejs.com/v1/event" "POST"
            "application/json" "json-body" ] :=
  ⟨rfl, rfl, rfl⟩

/-- C2 (amended): if the disable environment variable holds the exact sentinel
string "1", the function returns immediately with no side effects: no
fingerprint collection, no console output, no HTTP request. -/
theorem sendTelemetryEvent_disabled_no_effects (w : World) (eventType cwd : String)
    (dbProvider : Option String) (lists : Option ListsConfig)
    (h : w.env "KEYSTONE_TELEMETRY_DISABLED" = some "1") :
    sendTelemetryEvent w eventType cwd dbProvider lists = ([], Except.ok ()) := by
  simp [sendTelemetryEvent, sendTelemetryEventCore, h]

/-- `baseWorld` with the disable variable holding the sentinel "1". -/
def disabledWorld : World :=
  { baseWorld with
    env := fun k => if k = "KEYSTONE_TELEMETRY_DISABLED" then some "1" else none }

/-- Witness for the amended C2 at a concrete world. -/
theorem sendTelemetryEvent_disabled_no_effects_witness :
    sendTelemetryEvent disabledWorld "dev" "/repo" none none = ([], Except.ok ()) :=
  sendTelemetryEvent_disabled_no_effects disabledWorld "dev" "/repo" none none rfl

/-- C5: when the dispatcher reaches the send step (not disabled, not in debug
mode, the collectors and primitives succeed), exactly one POST is issued, its
URL is the endpoint override when set and non-empty (else the compiled-in
default) with the fixed `/v1/event` segment appended, with JSON content type
and the serialized payload as body. -/
theorem sendTelemetryEvent_post_url_and_body (w : World) (eventType cwd : String)
    (dbProvider : Option String) (lists : Option ListsConfig) (di : DeviceInfo)
    (body : String)
    (hdis : w.env "KEYSTONE_TELEMETRY_DISABLED" ≠ some "1")
    (hdbg : w.env "KEYSTONE_TELEMETRY_DEBUG" ≠ some "1")
    (hdev : deviceInfoRun w = Except.ok di)
    (hstr : w.stringifyResult
      (eventDataFields di (projectInfoRun w cwd lists) dbProvider eventType) =
      Except.ok body)
    (hfetch : w.fetchResult (resolveTelemetryEndpoint w.env ++ "/v1/event") =
      Except.ok ()) :
    (sendTelemetryEvent w eventType cwd dbProvider lists).1 =
      [ Effect.collectDevice, Effect.collectProject cwd
      , Effect.fetchPost (resolveTelemetryEndpoint w.env ++ "/v1/event") "POST"
          "application/json" body ]
    ∧ (∀ s, w.env "KEYSTONE_TELEMETRY_ENDPOINT" = some s → s ≠ "" →
        resolveTelemetryEndpoint w.env = s)
    ∧ (w.env "KEYSTONE_TELEMETRY_ENDPOINT" = none →
        resolveTelemetryEndpoint w.env = defaultTelemetryEndpoint)
    ∧ (w.env "KEYSTONE_TELEMETRY_ENDPOINT" = some "" →
        resolveTelemetryEndpoint w.env = defaultTelemetryEndpoint) := by
  refine ⟨?_, ?_, ?_, ?_⟩
  · simp [sendTelemetryEvent, sendTelemetryEventCore, hdis, hdbg, hdev, hstr, hfetch]
  · intro s hs hne
    simp [resolveTelemetryEndpoint, jsOrStr, hs, hne]
  · intro hnone
    simp [resolveTelemetryEndpoint, jsOrStr, hnone]
  · intro hempty
    simp [resolveTelemetryEndpoint, jsOrStr, hempty]

/-- Witness for C5 at a concrete world with no endpoint override. -/
theorem sendTelemetryEvent_post_url_and_body_witness :
    (sendTelemetryEvent baseWorld "dev" "/repo" (some "postgresql") none).1 =
      [ Effect.collectDevice, Effect.collectProject "/repo"
      , Effect.fetchPost (resolveTelemetryEndpoint baseWorld.env ++ "/v1/event")
          "POST" "application/json" "json-body" ] :=
  (sendTelemetryEvent_post_url_and_body baseWorld "dev" "/repo" (some "postgresql")
    none (deviceInfoOf baseWorld "machine-id-hashed") "json-body"
    (by decide) (by decide) rfl rfl rfl).1

/-- C6: with the debug flag set and the disable flag not set, the resolved URL
and the payload are written to the console and no fetch occurs; the disable
check precedes the debug check, so a set disable flag short-circuits the debug
output too. -/
theorem sendTelemetryEvent_debug_logs_no_fetch (w : World) (eventType cwd : String)
    (dbProvider : Option String) (lists : Option ListsConfig) (di : DeviceInfo)
    (hdbg : w.env "KEYSTONE_TELEMETRY_DEBUG" = some "1")
    (hdis : w.env "KEYSTONE_TELEMETRY_DISABLED" ≠ some "1")
    (hdev : deviceInfoRun w = Except.ok di) :
    ((sendTelemetryEvent w eventType cwd dbProvider lists).1 =
      [ Effect.collectDevice, Effect.collectProject cwd
      , Effect.consoleLog ("[Telemetry]: " ++ (resolveTelemetryEndpoint w.env ++ "/v1/event"))
      , Effect.consoleLogData
          (eventDataFields di (projectInfoRun w cwd lists) dbProvider eventType) ]
     ∧ ∀ u m c b, Effect.fetchPost u m c b ∉
        (sendTelemetryEvent w eventType cwd dbProvider lists).1)
    ∧ ∀ w2 : World, w2.env "KEYSTONE_TELEMETRY_DISABLED" = some "1" →
        w2.env "KEYSTONE_TELEMETRY_DEBUG" = some "1" →
        sendTelemetryEvent w2 eventType cwd dbProvider lists = ([], Except.ok ()) := by
  have hlist : (sendTelemetryEvent w eventType cwd dbProvider lists).1 =
      [ Effect.collectDevice, Effect.collectProject cwd
      , Effect.consoleLog ("[Telemetry]: " ++ (resolveTelemetryEndpoint w.env ++ "/v1/event"))
      , Effect.consoleLogData
          (eventDataFields di (projectInfoRun w cwd lists) dbProvider eventType) ] := by
    simp [sendTelemetryEvent, sendTelemetryEventCore, hdis, hdbg, hdev]
  refine ⟨⟨hlist, ?_⟩, ?_⟩
  · intro u m c b
    rw [hlist]
    simp
  · intro w2 h2dis _
    simp [sendTelemetryEvent, sendTelemetryEventCore, h2dis]

/-- `baseWorld` with the debug variable set to "1". -/
def debugWorld : World :=
  { baseWorld with
    env := fun k => if k = "KEYSTONE_TELEMETRY_DEBUG" then some "1" else none }

/-- Witness for C6 at a concrete world. -/
theorem sendTelemetryEvent_debug_logs_no_fetch_witness :
    (sendTelemetryEvent debugWorld "dev" "/repo" none none).1 =
      [ Effect.collectDevice, Effect.collectProject "/repo"
      , Effect.consoleLog
          ("[Telemetry]: " ++ (resolveTelemetryEndpoint debugWorld.env ++ "/v1/event"))
      , Effect.consoleLogData
          (eventDataFields (deviceInfoOf debugWorld "machine-id-hashed")
            (projectInfoRun debugWorld "/repo" none) none "dev") ] :=
  ((sendTelemetryEvent_debug_logs_no_fetch debugWorld "dev" "/repo" none none
    (deviceInfoOf debugWorld "machine-id-hashed") rfl (by decide) rfl).1).1

/-- Later bindings shadow earlier ones across an object-spread append. -/
theorem jsGet_append (k : String) (A B : List (String × JsValue)) :
    jsGet k (A ++ B) =
      match jsGet k B with
      | some w => some w
      | none => jsGet k A := by
  induction A with
  | nil => cases hB : jsGet k B <;> simp [jsGet, hB]
  | cons a A ih =>
    obtain ⟨a, v⟩ := a
    cases hB : jsGet k B <;> simp [jsGet, ih, hB]

/-- C8: in the merged payload the call-supplied `dbProvider` and `eventType`
take precedence (they are the object values at those keys), while every other
key keeps the value the collectors produced. -/
theorem eventData_call_fields_take_precedence (di : DeviceInfo) (pi : ProjectInfo)
    (dbProvider : Option String) (eventType : String) :
    jsGet "dbProvider" (eventDataFields di pi dbProvider eventType) =
      some (jsStrOrUndef dbProvider)
    ∧ jsGet "eventType" (eventDataFields di pi dbProvider eventType) =
      some (JsValue.str eventType)
    ∧ ∀ k, k ≠ "dbProvider" → k ≠ "eventType" →
        jsGet k (eventDataFields di pi dbProvider eventType) =
          jsGet k (deviceFields di ++ projectFields pi) := by
  have htail : ∀ k, k ≠ "dbProvider" → k ≠ "eventType" →
      jsGet k [("dbProvider", jsStrOrUndef dbProvider),
        ("eventType", JsValue.str eventType)] = none := by
    intro k h1 h2
    simp [jsGet, if_neg (Ne.symm h1), if_neg (Ne.symm h2)]
  refine ⟨?_, ?_, ?_⟩
  · rw [eventDataFields, jsGet_append]
    simp [jsGet]
  · rw [eventDataFields, jsGet_append]
    simp [jsGet]
  · intro k h1 h2
    rw [eventDataFields, jsGet_append, htail k h1 h2]

/-- Witness for C8 at concrete collector outputs and the key `pathHash`. -/
theorem eventData_call_fields_take_precedence_witness :
    jsGet "dbProvider"
      (eventDataFields (deviceInfoOf baseWorld "machine-id-hashed")
        (projectInfoRun baseWorld "/repo" none) (some "postgresql") "dev") =
      some (jsStrOrUndef (some "postgresql"))
    ∧ jsGet "pathHash"
      (eventDataFields (deviceInfoOf baseWorld "machine-id-hashed")
        (projectInfoRun baseWorld "/repo" none) (some "postgresql") "dev") =
      jsGet "pathHash" (deviceFields (deviceInfoOf baseWorld "machine-id-hashed") ++
        projectFields (projectInfoRun baseWorld "/repo" none)) :=
  ⟨(eventData_call_fields_take_precedence (deviceInfoOf baseWorld "machine-id-hashed")
      (projectInfoRun baseWorld "/repo" none) (some "postgresql") "dev").1,
   (eventData_call_fields_take_precedence (deviceInfoOf baseWorld "machine-id-hashed")
      (projectInfoRun baseWorld "/repo" none) (some "postgresql") "dev").2.2
      "pathHash" (by decide) (by decide)⟩

/-- The first set and non-empty value of a list of environment reads. -/
def firstNonEmpty : List (Option String) → Option String
  | [] => none
  | none :: rest => firstNonEmpty rest
  | some s :: rest => if s = "" then firstNonEmpty rest else some s

/-- An environment in which only `LC_NAME` is set. -/
def lcNameOnlyEnv : EnvF := fun k => if k = "LC_NAME" then some "fr_FR" else none

/-- C7 counterexample: with `LC_ALL`, `LC_MESSAGES`, `LANG` and `LANGUAGE` all
unset, the claim says the locale field is null; the code falls back to a fifth
variable, `LC_NAME`, and returns its value. -/
theorem locale_lc_name_fallback :
    lcNameOnlyEnv "LC_ALL" = none ∧ lcNameOnlyEnv "LC_MESSAGES" = none
    ∧ lcNameOnlyEnv "LANG" = none ∧ lcNameOnlyEnv "LANGUAGE" = none
    ∧ locale lcNameOnlyEnv = some "fr_FR" :=
  ⟨rfl, rfl, rfl, rfl, rfl⟩

/-- A right-nested `||` chain of environment reads, the last one unguarded:
`a1 || a2 || ... || an`. -/
def jsOrChain : List (Option String) → Option String
  | [] => none
  | [a] => a
  | a :: rest => jsOrOpt a (jsOrChain rest)

/-- The falsiness filter applied to an `||` chain agrees with selecting the
first set non-empty element directly. -/
theorem jsOrChain_strip_eq (l : List (Option String)) :
    (match jsOrChain l with
     | none => none
     | some s => if s = "" then none else some (dropFromDotStr s)) =
    (firstNonEmpty l).map dropFromDotStr := by
  induction l with
  | nil => rfl
  | cons a rest ih =>
    cases rest with
    | nil =>
      cases a with
      | none => rfl
      | some s =>
        by_cases hs : s = "" <;> simp [jsOrChain, firstNonEmpty, hs]
    | cons b t =>
      cases a with
      | none =>
        rw [show jsOrChain (none :: b :: t) = jsOrChain (b :: t) from rfl]
        rw [show firstNonEmpty (none :: b :: t) = firstNonEmpty (b :: t) from rfl]
        exact ih
      | some s =>
        by_cases hs : s = "" <;>
          simp only [jsOrChain, jsOrOpt, firstNonEmpty, hs, if_true, if_false,
            reduceIte] <;>
          first
          | exact ih
          | simp [hs]

/-- C7 (amended): the locale field equals the first non-empty value among the
locale environment variables in the precedence order `LC_ALL`, `LC_MESSAGES`,
`LANG`, `LANGUAGE`, `LC_NAME`, with everything from the first `.` on stripped;
when none of the five is set and non-empty, the field is null; the function is
total, so malformed values never cause a throw. -/
theorem locale_eq_first_nonempty (env : EnvF) :
    locale env =
      (firstNonEmpty [env "LC_ALL", env "LC_MESSAGES", env "LANG",
        env "LANGUAGE", env "LC_NAME"]).map dropFromDotStr :=
  jsOrChain_strip_eq [env "LC_ALL", env "LC_MESSAGES", env "LANG",
    env "LANGUAGE", env "LC_NAME"]

/-- Point update of an environment, as in an assignment to `process.env`. -/
def setVar (env : EnvF) (k v : String) : EnvF :=
  fun q => if q = k then some v else env q

/-- The module top-level disable resolution of the telemetry entry file: a
truthy persisted `telemetry.disabled` preference forces the Keystone disable
variable to "1", and a Keystone disable variable equal to "1" propagates to
the NextJS and Prisma disable variables.  `userTelemetryDisabled` is the
truthiness of the value read from the preference store. -/
def telemetryStartup (userTelemetryDisabled : Bool) (env : EnvF) : EnvF :=
  let env1 :=
    if userTelemetryDisabled then setVar env "KEYSTONE_TELEMETRY_DISABLED" "1" else env
  if env1 "KEYSTONE_TELEMETRY_DISABLED" = some "1" then
    setVar (setVar env1 "NEXT_TELEMETRY_DISABLED" "1") "CHECKPOINT_DISABLE" "1"
  else env1

/-- C9: if the persisted preference is truthy or the Keystone disable variable
equals "1", the startup code sets the disable state and propagates it by
setting `NEXT_TELEMETRY_DISABLED` and `CHECKPOINT_DISABLE` to "1"; every other
environment variable is left untouched. -/
theorem telemetryStartup_propagates (pref : Bool) (env : EnvF)
    (h : pref = true ∨ env "KEYSTONE_TELEMETRY_DISABLED" = some "1") :
    (telemetryStartup pref env "KEYSTONE_TELEMETRY_DISABLED" = some "1"
     ∧ telemetryStartup pref env "NEXT_TELEMETRY_DISABLED" = some "1"
     ∧ telemetryStartup pref env "CHECKPOINT_DISABLE" = some "1")
    ∧ ∀ k, k ≠ "KEYSTONE_TELEMETRY_DISABLED" → k ≠ "NEXT_TELEMETRY_DISABLED" →
        k ≠ "CHECKPOINT_DISABLE" → telemetryStartup pref env k = env k := by
  constructor
  · cases pref with
    | true => simp [telemetryStartup, setVar]
    | false =>
      rcases h with h | h
      · exact absurd h (by simp)
      · simp [telemetryStartup, setVar, h]
  · intro k h1 h2 h3
    cases pref with
    | true => simp [telemetryStartup, setVar, h1, h2, h3]
    | false =>
      simp only [telemetryStartup, Bool.false_eq_true, if_false]
      split <;> simp [setVar, h1, h2, h3]

/-- Witness for C9: a truthy preference in an otherwise empty environment. -/
theorem telemetryStartup_propagates_witness :
    telemetryStartup true (fun _ => none) "NEXT_TELEMETRY_DISABLED" = some "1"
    ∧ telemetryStartup true (fun _ => none) "CHECKPOINT_DISABLE" = some "1" :=
  ⟨(telemetryStartup_propagates true (fun _ => none) (Or.inl rfl)).1.2.1,
   (telemetryStartup_propagates true (fun _ => none) (Or.inl rfl)).1.2.2⟩

/-- Payload of the legacy `sendTelemetryEvent(event, environment, cwd,
prismaSchema)` variant. -/
structure LegacyEventData where
  device : String
  project : String
  schema : Option String
  keystoneVersion : Option String
  environment : String
  os : String
  osLanguage : Option String
  event : String
  deriving Repr, DecidableEq

/-- The object literal the legacy variant builds.  `hash` is `hashText`, the
hex-encoded SHA-256 digest; `mid` is the machine id; `osName` is
`os.platform()`.  The `schema` field mirrors `prismaSchema && hashText(...)`:
an absent schema stays absent, an empty one is kept as the falsy empty string,
any other is hashed. -/
def legacyEventData (env : EnvF) (hash : String → String) (mid osName : String)
    (event environment cwd : String) (prismaSchema : Option String) :
    LegacyEventData :=
  { device := mid
    project := jsOrStr (env "TELEMETRY_PROJECT") (hash cwd)
    schema :=
      match prismaSchema with
      | none => none
      | some s => if s = "" then some "" else some (hash s)
    keystoneVersion := env "npm_package_dependencies__keystone_next_keystone"
    environment := environment
    os := osName
    osLanguage := jsOrOpt (env "LC_ALL") (jsOrOpt (env "LC_MESSAGES")
      (jsOrOpt (env "LANG") (env "LANGUAGE")))
    event := event }

/-- C10: in the legacy variant, a set, non-empty `TELEMETRY_PROJECT` becomes
the `project` field verbatim, bypassing hashing; when it is unset or empty the
`project` field is the hash of `cwd`. -/
theorem legacy_project_env_override (env : EnvF) (hash : String → String)
    (mid osName event environment cwd : String) (ps : Option String) :
    (∀ s, env "TELEMETRY_PROJECT" = some s → s ≠ "" →
      (legacyEventData env hash mid osName event environment cwd ps).project = s)
    ∧ (env "TELEMETRY_PROJECT" = none →
      (legacyEventData env hash mid osName event environment cwd ps).project = hash cwd)
    ∧ (env "TELEMETRY_PROJECT" = some "" →
      (legacyEventData env hash mid osName event environment cwd ps).project = hash cwd) := by
  refine ⟨?_, ?_, ?_⟩
  · intro s hs hne
    simp [legacyEventData, jsOrStr, hs, hne]
  · intro hnone
    simp [legacyEventData, jsOrStr, hnone]
  · intro hempty
    simp [legacyEventData, jsOrStr, hempty]

theorem stripLead_append (p r : List Char) : stripLead p (p ++ r) = some r := by
  induction p with
  | nil => rfl
  | cons c cs ih => simp [stripLead, ih]

theorem replaceFirstColon_append (host rest : List Char) (h : ':' ∉ host) :
    replaceFirstColon (host ++ ':' :: rest) = host ++ '/' :: rest := by
  induction host with
  | nil => simp [replaceFirstColon]
  | cons c cs ih =>
    simp only [List.mem_cons, not_or] at h
    simp [replaceFirstColon, Ne.symm h.1, ih h.2]

theorem hasAtBeforeSlash_append_slash (host rest : List Char) (h : '@' ∉ host) :
    hasAtBeforeSlash (host ++ '/' :: rest) = false := by
  induction host with
  | nil => simp [hasAtBeforeSlash]
  | cons c cs ih =>
    simp only [List.mem_cons, not_or] at h
    by_cases hc : c = '/'
    · simp [hasAtBeforeSlash, hc]
    · simp [hasAtBeforeSlash, hc, Ne.symm h.1, ih h.2]

theorem hasAtBeforeSlash_user (user rest : List Char) (ha : '@' ∉ user)
    (hs : '/' ∉ user) : hasAtBeforeSlash (user ++ '@' :: rest) = true := by
  induction user with
  | nil => simp [hasAtBeforeSlash]
  | cons c cs ih =>
    simp only [List.mem_cons, not_or] at ha hs
    simp [hasAtBeforeSlash, Ne.symm ha.1, Ne.symm hs.1, ih ha.2 hs.2]

theorem dropThroughAt_user (user rest : List Char) (ha : '@' ∉ user) :
    dropThroughAt (user ++ '@' :: rest) = rest := by
  induction user with
  | nil => simp [dropThroughAt]
  | cons c cs ih =>
    simp only [List.mem_cons, not_or] at ha
    simp [dropThroughAt, Ne.symm ha.1, ih ha.2]

theorem stripTrailingNL_of_not_mem (l : List Char) (h : '\n' ∉ l) :
    stripTrailingNL l = l := by
  unfold stripTrailingNL
  cases hr : l.reverse with
  | nil => rfl
  | cons c rest =>
    have hcl : c ∈ l := by
      have hm : c ∈ l.reverse := by rw [hr]; exact List.mem_cons_self c rest
      simpa [List.mem_reverse] using hm
    have hne : c ≠ '\n' := fun he => h (he ▸ hcl)
    simp [hne]

theorem stripTrailingNL_append_newline (l : List Char) :
    stripTrailingNL (l ++ ['\n']) = l := by
  unfold stripTrailingNL
  rw [List.reverse_append]
  simp

theorem normalizeChars_ssh (host path : List Char) (hc : ':' ∉ host) :
    normalizeChars ("git@".data ++ (host ++ ':' :: path)) = host ++ '/' :: path := by
  simp only [normalizeChars, stripLead_append]
  exact replaceFirstColon_append host path hc

theorem normalizeChars_https (host path : List Char) (ha : '@' ∉ host) :
    normalizeChars ("https://".data ++ (host ++ '/' :: path)) = host ++ '/' :: path := by
  have hg : stripLead "git@".data ("https://".data ++ (host ++ '/' :: path)) = none := rfl
  simp only [normalizeChars, hg, stripLead_append]
  simp [hasAtBeforeSlash_append_slash host path ha]

theorem normalizeChars_http (host path : List Char) (ha : '@' ∉ host) :
    normalizeChars ("http://".data ++ (host ++ '/' :: path)) = host ++ '/' :: path := by
  have hg : stripLead "git@".data ("http://".data ++ (host ++ '/' :: path)) = none := rfl
  have hs : stripLead "https://".data ("http://".data ++ (host ++ '/' :: path)) = none := rfl
  simp only [normalizeChars, hg, hs, stripLead_append]
  simp [hasAtBeforeSlash_append_slash host path ha]

theorem normalizeChars_https_user (user host path : List Char) (hua : '@' ∉ user)
    (hus : '/' ∉ user) :
    normalizeChars ("https://".data ++ (user ++ '@' :: (host ++ '/' :: path))) =
      host ++ '/' :: path := by
  have hg : stripLead "git@".data
      ("https://".data ++ (user ++ '@' :: (host ++ '/' :: path))) = none := rfl
  simp only [normalizeChars, hg, stripLead_append]
  simp [hasAtBeforeSlash_user user (host ++ '/' :: path) hua hus,
    dropThroughAt_user user (host ++ '/' :: path) hua]

theorem normalizeOrigin_of_data (s : String) (h : '\n' ∉ s.data) (hne : s.data ≠ []) :
    normalizeOrigin s = some ⟨normalizeChars s.data⟩ := by
  unfold normalizeOrigin
  rw [stripTrailingNL_of_not_mem s.data h]
  simp [hne]

/-- C4: the four remote URL forms denoting `host/path` (SSH, https, http and
https-with-credentials) all normalize to the same `host/path` string, so the
computed git origin hash agrees on all four; a trailing newline in the raw git
output does not change the result; empty git output yields a null hash rather
than a hash of the empty string; and `projectInfo` derives its `gitOriginHash`
field by exactly this computation. -/
theorem gitOriginHash_stable_across_url_forms (h : String → String)
    (host path user : String)
    (hc : ':' ∉ host.data) (ha : '@' ∉ host.data)
    (hua : '@' ∉ user.data) (hus : '/' ∉ user.data)
    (hnlh : '\n' ∉ host.data) (hnlp : '\n' ∉ path.data) (hnlu : '\n' ∉ user.data) :
    (gitOriginHashOf h ("git@" ++ host ++ ":" ++ path) = some (h (host ++ "/" ++ path))
     ∧ gitOriginHashOf h ("https://" ++ host ++ "/" ++ path) = some (h (host ++ "/" ++ path))
     ∧ gitOriginHashOf h ("http://" ++ host ++ "/" ++ path) = some (h (host ++ "/" ++ path))
     ∧ gitOriginHashOf h ("https://" ++ user ++ "@" ++ host ++ "/" ++ path) =
        some (h (host ++ "/" ++ path)))
    ∧ (∀ s : String, '\n' ∉ s.data →
        gitOriginHashOf h (s ++ "\n") = gitOriginHashOf h s)
    ∧ gitOriginHashOf h "" = none
    ∧ ∀ (w : World) (cwd : String) (lists : Option ListsConfig) (raw : String),
        w.gitOriginRaw = Except.ok raw →
        (projectInfoRun w cwd lists).gitOriginHash = gitOriginHashOf w.sha256hex raw := by
  have hslash : (host ++ "/" ++ path).data = host.data ++ '/' :: path.data := by
    simp [String.data_append]
  refine ⟨⟨?_, ?_, ?_, ?_⟩, ?_, rfl, ?_⟩
  · have hdata : ("git@" ++ host ++ ":" ++ path).data =
        "git@".data ++ (host.data ++ ':' :: path.data) := by
      simp [String.data_append]
    have hmem : '\n' ∉ ("git@" ++ host ++ ":" ++ path).data := by
      rw [hdata]
      intro hm
      rcases List.mem_append.mp hm with hm | hm
      · exact absurd hm (by decide)
      · rcases List.mem_append.mp hm with hm | hm
        · exact hnlh hm
        · rcases List.mem_cons.mp hm with hm | hm
          · exact absurd hm (by decide)
          · exact hnlp hm
    have hne : ("git@" ++ host ++ ":" ++ path).data ≠ [] := by
      rw [hdata]
      exact List.append_ne_nil_of_left_ne_nil (by decide) _
    unfold gitOriginHashOf
    rw [normalizeOrigin_of_data _ hmem hne, hdata, normalizeChars_ssh host.data path.data hc]
    simp only [Option.map_some']
    exact congrArg (fun t => some (h t)) (String.ext hslash.symm)
  · have hdata : ("https://" ++ host ++ "/" ++ path).data =
        "https://".data ++ (host.data ++ '/' :: path.data) := by
      simp [String.data_append]
    have hmem : '\n' ∉ ("https://" ++ host ++ "/" ++ path).data := by
      rw [hdata]
      intro hm
      rcases List.mem_append.mp hm with hm | hm
      · exact absurd hm (by decide)
      · rcases List.mem_append.mp hm with hm | hm
        · exact hnlh hm
        · rcases List.mem_cons.mp hm with hm | hm
          · exact absurd hm (by decide)
          · exact hnlp hm
    have hne : ("https://" ++ host ++ "/" ++ path).data ≠ [] := by
      rw [hdata]
      exact List.append_ne_nil_of_left_ne_nil (by decide) _
    unfold gitOriginHashOf
    rw [normalizeOrigin_of_data _ hmem hne, hdata,
      normalizeChars_https host.data path.data ha]
    simp only [Option.map_some']
    exact congrArg (fun t => some (h t)) (String.ext hslash.symm)
  · have hdata : ("http://" ++ host ++ "/" ++ path).data =
        "http://".data ++ (host.data ++ '/' :: path.data) := by
      simp [String.data_append]
    have hmem : '\n' ∉ ("http://" ++ host ++ "/" ++ path).data := by
      rw [hdata]
      intro hm
      rcases List.mem_append.mp hm with hm | hm
      · exact absurd hm (by decide)
      · rcases List.mem_append.mp hm with hm | hm
        · exact hnlh hm
        · rcases List.mem_cons.mp hm with hm | hm
          · exact absurd hm (by decide)
          · exact hnlp hm
    have hne : ("http://" ++ host ++ "/" ++ path).data ≠ [] := by
      rw [hdata]
      exact List.append_ne_nil_of_left_ne_nil (by decide) _
    unfold gitOriginHashOf
    rw [normalizeOrigin_of_data _ hmem hne, hdata,
      normalizeChars_http host.data path.data ha]
    simp only [Option.map_some']
    exact congrArg (fun t => some (h t)) (String.ext hslash.symm)
  · have hdata : ("https://" ++ user ++ "@" ++ host ++ "/" ++ path).data =
        "https://".data ++ (user.data ++ '@' :: (host.data ++ '/' :: path.data)) := by
      simp [String.data_append]
    have hmem : '\n' ∉ ("https://" ++ user ++ "@" ++ host ++ "/" ++ path).data := by
      rw [hdata]
      intro hm
      rcases List.mem_append.mp hm with hm | hm
      · exact absurd hm (by decide)
      · rcases List.mem_append.mp hm with hm | hm
        · exact hnlu hm
        · rcases List.mem_cons.mp hm with hm | hm
          · exact absurd hm (by decide)
          · rcases List.mem_append.mp hm with hm | hm
            · exact hnlh hm
            · rcases List.mem_cons.mp hm with hm | hm
              · exact absurd hm (by decide)
              · exact hnlp hm
    have hne : ("https://" ++ user ++ "@" ++ host ++ "/" ++ path).data ≠ [] := by
      rw [hdata]
      exact List.append_ne_nil_of_left_ne_nil (by decide) _
    unfold gitOriginHashOf
    rw [normalizeOrigin_of_data _ hmem hne, hdata,
      normalizeChars_https_user user.data host.data path.data hua hus]
    simp only [Option.map_some']
    exact congrArg (fun t => some (h t)) (String.ext hslash.symm)
  · intro s hs
    unfold gitOriginHashOf normalizeOrigin
    rw [show (s ++ "\n").data = s.data ++ ['\n'] from by simp [String.data_append]]
    rw [stripTrailingNL_append_newline, stripTrailingNL_of_not_mem s.data hs]
  · intro w cwd lists raw hraw
    simp [projectInfoRun, hraw]

/-- Witness for C4 at the URL forms of the repository unit tests. -/
theorem gitOriginHash_stable_across_url_forms_witness :
    gitOriginHashOf (fun s => s ++ "-sha")
      ("git@" ++ "github.com" ++ ":" ++ "keystone/keystone.git") =
      some (("github.com" ++ "/" ++ "keystone/keystone.git") ++ "-sha")
    ∧ gitOriginHashOf (fun s => s ++ "-sha")
      ("https://" ++ "username" ++ "@" ++ "github.com" ++ "/" ++ "keystone/keystone.git") =
      some (("github.com" ++ "/" ++ "keystone/keystone.git") ++ "-sha")
    ∧ gitOriginHashOf (fun s => s ++ "-sha") "" = none :=
  ⟨(gitOriginHash_stable_across_url_forms (fun s => s ++ "-sha") "github.com"
      "keystone/keystone.git" "username" (by decide) (by decide) (by decide)
      (by decide) (by decide) (by decide) (by decide)).1.1,
   (gitOriginHash_stable_across_url_forms (fun s => s ++ "-sha") "github.com"
      "keystone/keystone.git" "username" (by decide) (by decide) (by decide)
      (by decide) (by decide) (by decide) (by decide)).1.2.2.2,
   (gitOriginHash_stable_across_url_forms (fun s => s ++ "-sha") "github.com"
      "keystone/keystone.git" "username" (by decide) (by decide) (by decide)
      (by decide) (by decide) (by decide) (by decide)).2.2.1⟩

/-- A string that differs from every string-valued field of the payload is
never the value of any payload key. -/
theorem str_not_mem_eventData (di : DeviceInfo) (pi : ProjectInfo)
    (db : Option String) (et : String) (x : String)
    (h1 : x ≠ di.deviceHash) (h2 : x ≠ di.os) (h3 : x ≠ di.osVersion)
    (h4 : x ≠ di.nodeVersion) (h5 : some x ≠ di.locale)
    (h6 : some x ≠ pi.gitOriginHash) (h7 : x ≠ pi.pathHash)
    (h8 : some x ≠ db) (h9 : x ≠ et) :
    ∀ k, (k, JsValue.str x) ∉ eventDataFields di pi db et := by
  intro k
  cases hl : di.locale <;> cases hg : pi.gitOriginHash <;>
    cases hf : pi.fieldCounts <;> cases hd : db <;>
      simp_all [eventDataFields, deviceFields, projectFields, jsStrOrNull, jsStrOrUndef]

/-- C3: in the payload the dispatcher builds, the working-directory field is
the one-way hash of `cwd`, the git-origin field is the one-way hash of the
normalized origin URL (or null when the git command failed), and — whenever
the raw working directory resp. the raw git origin string differs from the
hashes and the non-identifying fields — that raw string is not the value of
any payload key. -/
theorem payload_contains_only_hashes (w : World) (eventType cwd : String)
    (db : Option String) (ls : Option ListsConfig) (mid : String)
    (_hmid : w.machineId = Except.ok mid)
    (hc1 : cwd ≠ mid) (hc2 : cwd ≠ w.osPlatform) (hc3 : cwd ≠ w.osRelease)
    (hc4 : cwd ≠ w.nodeVersion) (hc5 : some cwd ≠ locale w.env)
    (hc6 : some cwd ≠ (projectInfoRun w cwd ls).gitOriginHash)
    (hc7 : cwd ≠ w.sha256hex cwd) (hc8 : some cwd ≠ db) (hc9 : cwd ≠ eventType) :
    jsGet "pathHash"
      (eventDataFields (deviceInfoOf w mid) (projectInfoRun w cwd ls) db eventType) =
      some (JsValue.str (w.sha256hex cwd))
    ∧ (jsGet "gitOriginHash"
        (eventDataFields (deviceInfoOf w mid) (projectInfoRun w cwd ls) db eventType) =
        some (jsStrOrNull (projectInfoRun w cwd ls).gitOriginHash)
      ∧ ∀ raw, w.gitOriginRaw = Except.ok raw →
          (projectInfoRun w cwd ls).gitOriginHash = gitOriginHashOf w.sha256hex raw)
    ∧ (∀ k, (k, JsValue.str cwd) ∉
        eventDataFields (deviceInfoOf w mid) (projectInfoRun w cwd ls) db eventType)
    ∧ ∀ raw, w.gitOriginRaw = Except.ok raw →
        raw ≠ mid → raw ≠ w.osPlatform → raw ≠ w.osRelease → raw ≠ w.nodeVersion →
        some raw ≠ locale w.env →
        some raw ≠ (projectInfoRun w cwd ls).gitOriginHash →
        raw ≠ w.sha256hex cwd → some raw ≠ db → raw ≠ eventType →
        ∀ k, (k, JsValue.str raw) ∉
          eventDataFields (deviceInfoOf w mid) (projectInfoRun w cwd ls) db eventType := by
  refine ⟨rfl, ⟨rfl, ?_⟩, ?_, ?_⟩
  · intro raw hraw
    simp [projectInfoRun, hraw]
  · exact str_not_mem_eventData (deviceInfoOf w mid) (projectInfoRun w cwd ls) db
      eventType cwd hc1 hc2 hc3 hc4 hc5 hc6 hc7 hc8 hc9
  · intro raw _ hr1 hr2 hr3 hr4 hr5 hr6 hr7 hr8 hr9
    exact str_not_mem_eventData (deviceInfoOf w mid) (projectInfoRun w cwd ls) db
      eventType raw hr1 hr2 hr3 hr4 hr5 hr6 hr7 hr8 hr9

/-- Witness for C3 at a concrete world and working directory. -/
theorem payload_contains_only_hashes_witness :
    jsGet "pathHash"
      (eventDataFields (deviceInfoOf baseWorld "machine-id-hashed")
        (projectInfoRun baseWorld "/repo" none) (some "postgresql") "dev") =
      some (JsValue.str (baseWorld.sha256hex "/repo"))
    ∧ ("pathHash", JsValue.str "/repo") ∉
      eventDataFields (deviceInfoOf baseWorld "machine-id-hashed")
        (projectInfoRun baseWorld "/repo" none) (some "postgresql") "dev" :=
  ⟨(payload_contains_only_hashes baseWorld "dev" "/repo" (some "postgresql") none
      "machine-id-hashed" rfl (by decide) (by decide) (by decide) (by decide)
      (by decide) (by decide) (by decide) (by decide) (by decide)).1,
   (payload_contains_only_hashes baseWorld "dev" "/repo" (some "postgresql") none
      "machine-id-hashed" rfl (by decide) (by decide) (by decide) (by decide)
      (by decide) (by decide) (by decide) (by decide) (by decide)).2.2.1 "pathHash"⟩

/-- An environment in which only `TELEMETRY_PROJECT` is set. -/
def projectNameEnv : EnvF :=
  fun k => if k = "TELEMETRY_PROJECT" then some "my-project" else none

/-- Witness for C10 with `TELEMETRY_PROJECT` set to a non-empty string. -/
theorem legacy_project_env_override_witness :
    (legacyEventData projectNameEnv (fun s => s ++ "-sha") "mid" "linux" "dev"
      "development" "/repo" none).project = "my-project" :=
  (legacy_project_env_override projectNameEnv (fun s => s ++ "-sha") "mid" "linux"
    "dev" "development" "/repo" none).1 "my-project" rfl (by decide)
